import Mathlib

/-!
# legislacion-api: user accounts and bearer tokens (`user/auth.go`)

A shallow embedding of the handlers of `user/auth.go`.

* Go strings are modelled by `String` (lists of code points); `len(s) == 0` is
  `s.length = 0`.
* A handler run is a pure function of the request, of the store state and of an
  environment `Env` that fixes what the outside world answers during the run:
  the bytes `rand.Read` delivers, what bcrypt computes, and which SQL statements
  fail at the driver.
* A handler returns an `Outcome`: the `c.JSON` calls it made, in order, the
  store state it leaves, the SQL statements it issued, in order, whether
  `log.Fatal` ended the process, and the status gin itself wrote before the
  first `c.JSON` call (`c.BindJSON` on a binding error).
* gin writes the status line once: `Outcome.wireStatus` is the status the client
  receives, the payloads of the `c.JSON` calls follow it in order. A Go error
  value passed to `c.JSON` carries the JSON text that stands for it on the wire.
-/

namespace Legislacion

/-! ## Strings: `strings.Split`, `strings.TrimSpace` -/

/-- Go `unicode.IsSpace`: the code points with the White_Space property. -/
def isSpace (c : Char) : Bool :=
  (0x09 ≤ c.toNat && c.toNat ≤ 0x0D) || c.toNat == 0x20 || c.toNat == 0x85 || c.toNat == 0xA0 ||
  c.toNat == 0x1680 || (0x2000 ≤ c.toNat && c.toNat ≤ 0x200A) || c.toNat == 0x2028 ||
  c.toNat == 0x2029 || c.toNat == 0x202F || c.toNat == 0x205F || c.toNat == 0x3000

/-- Go `strings.TrimSpace`: leading and trailing white space removed. -/
def TrimSpace (s : List Char) : List Char :=
  ((s.dropWhile isSpace).reverse.dropWhile isSpace).reverse

/-- The loop of Go `strings.Split(s, sep)` for a non-empty `sep`, scanning `s` from the
left: `cur` holds, reversed, the characters of the segment being read, and `skip` counts
the characters of a separator just matched that are still to be passed over. At each
leftmost match of `sep` the segment read so far is emitted and the scan resumes after the
separator; the rest of the string is the last segment. -/
def splitLoop (sep : List Char) : List Char → Nat → List Char → List (List Char)
  | [], _, cur => [cur.reverse]
  | _ :: cs, skip + 1, cur => splitLoop sep cs skip cur
  | c :: cs, 0, cur =>
    if sep.isPrefixOf (c :: cs) then cur.reverse :: splitLoop sep cs (sep.length - 1) []
    else splitLoop sep cs 0 (c :: cur)

/-- Go `strings.Split(s, sep)` for a non-empty separator. -/
def Split (s sep : List Char) : List (List Char) :=
  splitLoop sep s 0 []

/-- The separator of the `Authorization` header, `"Bearer"`. -/
def Bearer : List Char := ['B', 'e', 'a', 'r', 'e', 'r']

/-- The number of positions of `s` at which `sep` occurs. -/
def occurrences (sep : List Char) : List Char → Nat
  | [] => 0
  | c :: cs => (if sep.isPrefixOf (c :: cs) then 1 else 0) + occurrences sep cs

/-! ## Data model -/

/-- The `User` struct. `PasswordHash` is never serialised (`json:"-"`), `PasswordSalt`
is the plaintext password, JSON field `password`. -/
structure User where
  ID : Int
  UserName : String
  FullName : String
  Email : String
  PasswordHash : String
  PasswordSalt : String
  IsDisabled : Bool
  Token : String
deriving DecidableEq, Repr

/-- The zero value of `User` (`var user User`). -/
def User.zero : User := ⟨0, "", "", "", "", "", false, ""⟩

/-- One row of the table `users`, its columns in the order in which `LoginHandler` scans
the result of `SELECT *`. -/
structure StoredRow where
  id : Int
  username : String
  fullname : String
  passwordhash : String
  isdisabled : Bool
  email : String
  token : String
deriving DecidableEq, Repr

/-- Modelled from the spec: the credential store behind `db.GetDB()` (package
`legislacion/db`), one table `users` with one row per account, and the sequence
`users_seq` that numbers them. -/
structure DB where
  rows : List StoredRow
  seq : Int
deriving DecidableEq, Repr

/-- A Go error value: the message `Error()` returns, which the handlers log, and the text
`encoding/json` writes for the value, `{}` for a value without exported fields such as
those `errors.New` and `fmt.Errorf` make. -/
structure GoError where
  msg : String
  json : String
deriving DecidableEq, Repr

/-- The value `sql.ErrNoRows`, made by `errors.New`. -/
def ErrNoRows : GoError := ⟨"sql: no rows in result set", "\x7b\x7d"⟩

/-- The SQL statements the handlers issue, with their arguments. -/
inductive Stmt where
  | selectByUsername (username : String)
  | selectToken (token : String)
  | updateToken (token : String) (id : Int)
  | insertUser (username fullname email passwordhash token : String)
deriving DecidableEq, Repr

/-- What the outside world answers during one handler run. -/
structure Env where
  /-- the bytes `rand.Read` writes into the buffer, in order -/
  randRead : List Nat
  /-- `bcrypt.GenerateFromPassword(password, cost)` -/
  GenerateFromPassword : String → Nat → Except String String
  /-- `bcrypt.CompareHashAndPassword(hash, password)`: `none` is a nil error -/
  CompareHashAndPassword : String → String → Option String
  /-- the driver error of a statement that fails, `none` when it runs -/
  stmtErr : Stmt → Option GoError

/-- Modelled from the spec: the payload of a `c.JSON` call. `errors` is `utils.Errors`
(package `legislacion/utils`), the structured list of messages; `err` is a Go error value,
written on the wire as its `json` text; `account` is a `User`; `h` is a one-entry
`gin.H`. -/
inductive Body where
  | errors (msgs : List String)
  | err (e : GoError)
  | account (u : User)
  | h (key value : String)
deriving DecidableEq, Repr

/-- One `c.JSON(status, body)` call. -/
structure Response where
  status : Nat
  body : Body
deriving DecidableEq, Repr

/-- The result of a handler run: the `c.JSON` calls in order, the store, the statements
issued in order, whether `log.Fatal` ended the process, and the status gin wrote with
`AbortWithStatus` before the first `c.JSON` call, if it did. -/
structure Outcome where
  responses : List Response
  db : DB
  stmts : List Stmt
  exited : Bool
  aborted : Option Nat
deriving DecidableEq, Repr

/-- The status line the client receives. gin writes the header once: at
`AbortWithStatus`, else at the first `c.JSON` call; a later `c.JSON` call cannot change
the status and only adds its payload. Without any write the server answers 200; no
answer when the process has exited. -/
def Outcome.wireStatus (o : Outcome) : Option Nat :=
  if o.exited then none
  else
    match o.aborted, o.responses with
    | some code, _ => some code
    | none, r :: _ => some r.status
    | none, [] => some 200

/-- gin `c.BindJSON` (`MustBindWith`): on a binding error it calls
`AbortWithError(http.StatusBadRequest, err)`, which writes the status 400 at once. -/
def bindAbort (err : Option String) : Option Nat :=
  match err with
  | some _ => some 400
  | none => none

/-! ## The store -/

/-- The rows `SELECT * FROM users WHERE username = $1` yields. -/
def DB.byUsername (db : DB) (username : String) : List StoredRow :=
  db.rows.filter (fun r => r.username == username)

/-- The rows `SELECT token FROM users WHERE token = $1` yields (one column). -/
def DB.byToken (db : DB) (token : String) : List String :=
  (db.rows.filter (fun r => r.token == token)).map (fun r => r.token)

/-- The table after `UPDATE users SET token = $1 WHERE id = $2`. -/
def DB.setToken (db : DB) (token : String) (id : Int) : DB :=
  { db with rows := db.rows.map (fun r => if r.id == id then { r with token := token } else r) }

/-- `database/sql` `Row.Scan` on the first row of a result of `ncols` columns into `ndest`
destinations: the query error if there is one, `ErrNoRows` when the result is empty, an
error when the number of destinations is not the number of columns. -/
def RowScan {α : Type} (ncols ndest : Nat) (result : Except GoError (List α)) :
    Except GoError α :=
  match result with
  | .error e => .error e
  | .ok [] => .error ErrNoRows
  | .ok (r :: _) =>
    if ncols ≠ ndest then
      .error ⟨"sql: expected " ++ toString ncols ++ " destination arguments in Scan, not "
        ++ toString ndest, "\x7b\x7d"⟩
    else .ok r

/-- Assigning an integer column to an `int8` destination: an error out of range. -/
def scanInt8 (v : Int) : Except GoError Int :=
  if -128 ≤ v ∧ v ≤ 127 then .ok v
  else .error ⟨"sql: Scan error on column index 0, name \"id\": converting driver.Value type "
    ++ "int64 (\"" ++ toString v ++ "\") to a int8: value out of range", "\x7b\x7d"⟩

/-! ## `user/auth.go` -/

/-- The lower-case hexadecimal digit of `n < 16` (`%x`). -/
def hexDigit (n : Nat) : Char :=
  if n < 10 then Char.ofNat (48 + n) else Char.ofNat (87 + n)

/-- The function `tokenGenerator`: a buffer of 64 zero bytes, `rand.Read` into it (a byte
it does not deliver stays zero), formatted with `%x`. -/
def tokenGenerator (env : Env) : String :=
  String.mk (((List.range 64).map (fun i => env.randRead.getD i 0 % 256)).flatMap
    (fun b => [hexDigit (b / 16), hexDigit (b % 16)]))

/-- The function `extractToken`: the token and the error (`none` is nil). -/
def extractToken (bearer : String) : String × Option String :=
  let splitToken := Split bearer.toList Bearer
  if splitToken.length ≠ 2 then ("", some "Invalid format")
  else (String.mk (TrimSpace (splitToken.getD 1 [])), none)

/-- The function `ValidateToken`, with the statements it issued. -/
def ValidateToken (env : Env) (db : DB) (token : String) : Bool × List Stmt :=
  let splitToken := Split token.toList Bearer
  if splitToken.length ≠ 2 then (false, [])
  else
    let token := String.mk (TrimSpace (splitToken.getD 1 []))
    match env.stmtErr (.selectToken token) with
    | some _ => (false, [.selectToken token])
    | none => (!(db.byToken token).isEmpty, [.selectToken token])

/-- The function `verifyPassword`. -/
def verifyPassword (env : Env) (password originalHashed : String) : Bool :=
  match env.CompareHashAndPassword originalHashed password with
  | some _ => false
  | none => true

/-- The function `hashPassword`. -/
def hashPassword (env : Env) (password : String) : String × Option String :=
  match env.GenerateFromPassword password 10 with
  | .error e => ("", some e)
  | .ok passBytes => (passBytes, none)

/-- The function `updateToken`: the user with the new token, the store after the
`UPDATE` (unchanged when it fails: the error is only logged), the statement issued. -/
def updateToken (env : Env) (db : DB) (user : User) : User × DB × List Stmt :=
  let user := { user with Token := tokenGenerator env }
  match env.stmtErr (.updateToken user.Token user.ID) with
  | some _ => (user, db, [.updateToken user.Token user.ID])
  | none => (user, db.setToken user.Token user.ID, [.updateToken user.Token user.ID])

/-- The function `createUser`: `none` when `log.Fatal` ends the process, otherwise the
user, the returned error, the store and the statement issued. The result of
`row.Scan(&user.ID)` is dropped: on any failure `user.ID` keeps its value. -/
def createUser (env : Env) (db : DB) (user : User) :
    Option (User × Option GoError × DB × List Stmt) :=
  match hashPassword env user.PasswordSalt with
  | (_, some _) => none
  | (hash, none) =>
    let user := { user with PasswordHash := hash }
    let user := { user with Token := tokenGenerator env }
    let stmt := Stmt.insertUser user.UserName user.FullName user.Email user.PasswordHash user.Token
    match env.stmtErr stmt with
    | some _ => some (user, none, db, [stmt])
    | none =>
      let id := db.seq + 1
      let db := { rows := db.rows ++ [⟨id, user.UserName, user.FullName, user.PasswordHash,
                    false, user.Email, user.Token⟩], seq := id }
      match scanInt8 id with
      | .ok v => some ({ user with ID := v }, none, db, [stmt])
      | .error _ => some (user, none, db, [stmt])

/-- The function `CreateUserHandler`; `postForm` is `c.PostForm`, the empty string for a
key the form does not have. -/
def CreateUserHandler (env : Env) (db : DB) (postForm : String → String) : Outcome :=
  let user := User.zero
  let user := { user with UserName := postForm "username" }
  let user := { user with PasswordSalt := postForm "password" }
  let user := { user with FullName := postForm "fullname" }
  let user := { user with Email := postForm "email" }
  let errors : List String := []
  let errors := if user.UserName.length = 0 then errors ++ ["Username required"] else errors
  let errors := if user.PasswordSalt.length = 0 then errors ++ ["Password required"] else errors
  let errors := if user.Email.length = 0 then errors ++ ["Email required"] else errors
  if errors.length > 0 then
    ⟨[⟨400, .errors errors⟩], db, [], false, none⟩
  else
    match createUser env db user with
    | none => ⟨[], db, [], true, none⟩
    | some (user, err, db, stmts) =>
      let rs := match err with
        | some e => [Response.mk 400 (.err e)]
        | none => []
      let user := { user with PasswordSalt := "" }
      ⟨rs ++ [⟨200, .account user⟩], db, stmts, false, none⟩

/-- The lookup of `LoginHandler` (lines 79 to 83): the query by username and the scan of
its first row into the user, whose `PasswordSalt` is not a column and is kept. -/
def lookupUser (env : Env) (db : DB) (user : User) : Except GoError User :=
  let result : Except GoError (List StoredRow) :=
    match env.stmtErr (.selectByUsername user.UserName) with
    | some e => .error e
    | none => .ok (db.byUsername user.UserName)
  match RowScan 7 7 result with
  | .error e => .error e
  | .ok r =>
    match scanInt8 r.id with
    | .error e => .error e
    | .ok id => .ok ⟨id, r.username, r.fullname, r.email, r.passwordhash, user.PasswordSalt,
                     r.isdisabled, r.token⟩

/-- The function `LoginHandler`. `user` and `err` are what `c.BindJSON(&user)` leaves:
the user as far as the body filled it, and the binding error, `none` for nil. On a
binding error gin has written the status 400 (`bindAbort`); the handler only logs the
error and goes on. -/
def LoginHandler (env : Env) (db : DB) (user : User) (err : Option String) : Outcome :=
  let aborted := bindAbort err
  let errors : List String := []
  let errors := if user.UserName.length = 0 then errors ++ ["Username required"] else errors
  let errors := if user.PasswordSalt.length = 0 then errors ++ ["Password required"] else errors
  if errors.length > 0 then
    ⟨[⟨400, .errors errors⟩], db, [], false, aborted⟩
  else
    let query := Stmt.selectByUsername user.UserName
    match lookupUser env db user with
    | .error e => ⟨[⟨500, .err e⟩], db, [query], false, aborted⟩
    | .ok user =>
      let isValid := verifyPassword env user.PasswordSalt user.PasswordHash
      if isValid = false then
        let errors := errors ++ ["Username or password incorrect"]
        ⟨[⟨422, .errors errors⟩], db, [query], false, aborted⟩
      else
        match updateToken env db user with
        | (user, db, stmts) => ⟨[⟨200, .account user⟩], db, query :: stmts, false, aborted⟩

/-- The function `UserByToken`; `header` is `c.GetHeader("Authorization")`. No branch
returns early. The query yields one column and the scan names six destinations, and its
result is dropped, so `u` keeps its zero value whenever the scan fails. -/
def UserByToken (env : Env) (db : DB) (header : String) : Outcome :=
  let u := User.zero
  let token := header
  let rs1 := if token.length = 0 then [Response.mk 400 (.h "error" "Token required")] else []
  let (token, err) := extractToken token
  let rs2 := match err with
    | some e => [Response.mk 502 (.h "error" e)]
    | none => []
  let result : Except GoError (List String) :=
    match env.stmtErr (.selectToken token) with
    | some e => .error e
    | none => .ok (db.byToken token)
  let u := match RowScan 1 6 result with
    | .error _ => u
    | .ok _ => u
  ⟨rs1 ++ rs2 ++ [⟨200, .account u⟩], db, [.selectToken token], false, none⟩

/-! ## Concrete environments, stores and requests -/

/-- A stand-in for bcrypt hashing in the examples: the hash of `p` is `"hash:" ++ p`. -/
def exampleGenerate (p : String) (_cost : Nat) : Except String String :=
  .ok ("hash:" ++ p)

/-- A stand-in for bcrypt comparison in the examples, matching `exampleGenerate`. -/
def exampleCompare (hash p : String) : Option String :=
  if hash = "hash:" ++ p then none
  else some "crypto/bcrypt: hashedPassword is not the hash of the given password"

/-- Every statement runs; `rand.Read` delivers the bytes `0xab, 0xcd`. -/
def envUp : Env := ⟨[171, 205], exampleGenerate, exampleCompare, fun _ => none⟩

/-- Every statement runs; `rand.Read` delivers only zero bytes. -/
def envZero : Env := ⟨[], exampleGenerate, exampleCompare, fun _ => none⟩

/-- The `UPDATE` statement fails at the driver, the other statements run. -/
def envUpdateFails : Env :=
  ⟨[171, 205], exampleGenerate, exampleCompare, fun s =>
    match s with
    | .updateToken _ _ => some ⟨"driver: bad connection", "\x7b\x7d"⟩
    | _ => none⟩

/-- The `INSERT` statement fails at the driver, the other statements run. -/
def envInsertFails : Env :=
  ⟨[171, 205], exampleGenerate, exampleCompare, fun s =>
    match s with
    | .insertUser _ _ _ _ _ => some ⟨"driver: bad connection", "\x7b\x7d"⟩
    | _ => none⟩

/-- The store without accounts. -/
def dbEmpty : DB := ⟨[], 0⟩

/-- The store with the account `alice`, password `secret`, token `0f`. -/
def dbAlice : DB := ⟨[⟨1, "alice", "Alice", "hash:secret", false, "a@x.com", "0f"⟩], 1⟩

/-- The store with the account `alice` whose token is the token of 64 zero bytes. -/
def dbAliceZero : DB :=
  ⟨[⟨1, "alice", "Alice", "hash:secret", false, "a@x.com", tokenGenerator envZero⟩], 1⟩

/-- The store in which the token of `alice` starts with a blank and `bob` holds the
same token without the blank. -/
def dbBlank : DB :=
  ⟨[⟨1, "alice", "Alice", "hash:secret", false, "a@x.com", " 0f"⟩,
    ⟨2, "bob", "Bob", "hash:hunter2", false, "b@x.com", "0f"⟩], 2⟩

/-- The login body `{"username": "alice", "password": "secret"}`. -/
def aliceLogin : User := { User.zero with UserName := "alice", PasswordSalt := "secret" }

/-- The login body `{"username": "alice", "password": "wrong"}`. -/
def aliceWrong : User := { User.zero with UserName := "alice", PasswordSalt := "wrong" }

/-- The error `c.BindJSON` returns for a login body whose field `id` is the string `"x"`,
such as `{"username": "alice", "password": "secret", "id": "x"}`: the decoder fills the
username and the password and fails on `id`. -/
def bindErrId : String :=
  "json: cannot unmarshal string into Go struct field User.id of type int8"

/-- The registration form of `alice`, without `fullname`. -/
def aliceForm (key : String) : String :=
  if key = "username" then "alice"
  else if key = "password" then "secret"
  else if key = "email" then "a@x.com"
  else ""

/-- A registration form with only `fullname` and `email`. -/
def emptyForm (key : String) : String :=
  if key = "fullname" then "Alice"
  else if key = "email" then "a@x.com"
  else ""

/-- The behaviour the specification words for `ValidateToken`: the extraction rule of
`extractToken`, then whether any row of the store has the extracted token. -/
def ValidateTokenSpec (env : Env) (db : DB) (h : String) : Bool × List Stmt :=
  match extractToken h with
  | (_, some _) => (false, [])
  | (t, none) =>
    (decide (env.stmtErr (.selectToken t) = none ∧ ∃ r ∈ db.rows, r.token = t),
      [.selectToken t])

/-! ## Lemmas on `Split` and `TrimSpace` -/

theorem splitLoop_skip (sep : List Char) (k : Nat) (s cur : List Char) :
    splitLoop sep s k cur = splitLoop sep (s.drop k) 0 cur := by
  induction k generalizing s with
  | zero => simp
  | succ k ih =>
    cases s with
    | nil => simp [splitLoop]
    | cons c cs => simp [splitLoop, ih]

theorem occurrences_cons_match (sep : List Char) (c : Char) (cs : List Char)
    (h : sep.isPrefixOf (c :: cs) = true) :
    occurrences sep (c :: cs) = 1 + occurrences sep cs := by
  show (if sep.isPrefixOf (c :: cs) then 1 else 0) + occurrences sep cs = _
  rw [h]
  rfl

theorem occurrences_cons_nomatch (sep : List Char) (c : Char) (cs : List Char)
    (h : sep.isPrefixOf (c :: cs) = false) :
    occurrences sep (c :: cs) = occurrences sep cs := by
  show (if sep.isPrefixOf (c :: cs) then 1 else 0) + occurrences sep cs = _
  rw [h]
  exact Nat.zero_add _

theorem occurrences_Bearer_append (post : List Char) :
    occurrences Bearer (Bearer ++ post) = 1 + occurrences Bearer post := by
  simp [Bearer, occurrences, List.isPrefixOf]

theorem Bearer_isPrefixOf_iff (s : List Char) :
    Bearer.isPrefixOf s = true ↔ ∃ post, s = Bearer ++ post := by
  rw [ List.isPrefixOf_iff_prefix]
  constructor
  · rintro ⟨t, rfl⟩; exact ⟨t, rfl⟩
  · rintro ⟨t, rfl⟩; exact ⟨t, rfl⟩

theorem splitLoop_match (post cur : List Char) :
    splitLoop Bearer (Bearer ++ post) 0 cur = cur.reverse :: splitLoop Bearer post 0 [] := by
  have h : splitLoop Bearer (Bearer ++ post) 0 cur
      = cur.reverse :: splitLoop Bearer ('e' :: 'a' :: 'r' :: 'e' :: 'r' :: post) 5 [] := by
    simp [Bearer, splitLoop, List.isPrefixOf]
  rw [h, splitLoop_skip]
  simp

theorem splitLoop_nomatch (c : Char) (cs cur : List Char)
    (h : Bearer.isPrefixOf (c :: cs) = false) :
    splitLoop Bearer (c :: cs) 0 cur = splitLoop Bearer cs 0 (c :: cur) := by
  simp [splitLoop, h]

theorem splitLoop_length (n : Nat) : ∀ (s cur : List Char), s.length ≤ n →
    (splitLoop Bearer s 0 cur).length = occurrences Bearer s + 1 := by
  induction n with
  | zero =>
    intro s cur hs
    have : s = [] := List.length_eq_zero.mp (Nat.le_zero.mp hs)
    subst this
    simp [splitLoop, occurrences]
  | succ n ih =>
    intro s cur hs
    cases s with
    | nil => simp [splitLoop, occurrences]
    | cons c cs =>
      by_cases hp : Bearer.isPrefixOf (c :: cs) = true
      · obtain ⟨post, hpost⟩ := (Bearer_isPrefixOf_iff _).mp hp
        rw [hpost, splitLoop_match, occurrences_Bearer_append, List.length_cons, ih]
        · omega
        · have : (c :: cs).length = 6 + post.length := by rw [hpost]; simp [Bearer]; omega
          simp only [List.length_cons] at hs this
          omega
      · have hp2 : Bearer.isPrefixOf (c :: cs) = false := Bool.eq_false_iff.mpr hp
        rw [splitLoop_nomatch c cs cur hp2, ih cs (c :: cur) (by simpa using hs),
          occurrences_cons_nomatch _ c cs hp2]

theorem Split_length (s : List Char) :
    (Split s Bearer).length = occurrences Bearer s + 1 :=
  splitLoop_length s.length s [] (Nat.le_refl _)

theorem splitLoop_none (s : List Char) : ∀ cur : List Char, occurrences Bearer s = 0 →
    splitLoop Bearer s 0 cur = [cur.reverse ++ s] := by
  induction s with
  | nil => intro cur _; simp [splitLoop]
  | cons c cs ih =>
    intro cur h
    by_cases hp : Bearer.isPrefixOf (c :: cs) = true
    · rw [occurrences_cons_match _ c cs hp] at h
      omega
    · have hp2 : Bearer.isPrefixOf (c :: cs) = false := Bool.eq_false_iff.mpr hp
      have h2 : occurrences Bearer cs = 0 := by
        rwa [occurrences_cons_nomatch _ c cs hp2] at h
      rw [splitLoop_nomatch c cs cur hp2, ih (c :: cur) h2]
      simp

theorem occurrences_infix_pos (pre post : List Char) :
    1 ≤ occurrences Bearer (pre ++ Bearer ++ post) := by
  induction pre with
  | nil => simp only [List.nil_append, occurrences_Bearer_append]; omega
  | cons c p ih =>
    have h1 : occurrences Bearer (p ++ Bearer ++ post)
        ≤ occurrences Bearer (c :: (p ++ Bearer ++ post)) := by
      show _ ≤ _ + occurrences Bearer (p ++ Bearer ++ post)
      omega
    simpa using Nat.le_trans ih h1

theorem splitLoop_once (pre : List Char) : ∀ (post cur : List Char),
    occurrences Bearer (pre ++ Bearer ++ post) = 1 →
    splitLoop Bearer (pre ++ Bearer ++ post) 0 cur = [cur.reverse ++ pre, post] := by
  induction pre with
  | nil =>
    intro post cur h
    simp only [List.nil_append] at h ⊢
    rw [occurrences_Bearer_append] at h
    rw [splitLoop_match, splitLoop_none post [] (by omega)]
    simp
  | cons c p ih =>
    intro post cur h
    simp only [List.cons_append] at h ⊢
    by_cases hp : Bearer.isPrefixOf (c :: (p ++ Bearer ++ post)) = true
    · have := occurrences_infix_pos p post
      rw [occurrences_cons_match _ c _ hp] at h
      omega
    · have hp2 : Bearer.isPrefixOf (c :: (p ++ Bearer ++ post)) = false := Bool.eq_false_iff.mpr hp
      have h2 : occurrences Bearer (p ++ Bearer ++ post) = 1 := by
        rwa [occurrences_cons_nomatch _ c _ hp2] at h
      rw [splitLoop_nomatch c _ cur hp2, ih post (c :: cur) h2]
      simp

theorem occurrences_pos_split (s : List Char) : 1 ≤ occurrences Bearer s →
    ∃ pre post, s = pre ++ Bearer ++ post := by
  induction s with
  | nil => intro h; simp [occurrences] at h
  | cons c cs ih =>
    intro h
    by_cases hp : Bearer.isPrefixOf (c :: cs) = true
    · obtain ⟨post, hpost⟩ := (Bearer_isPrefixOf_iff _).mp hp
      exact ⟨[], post, by simpa using hpost⟩
    · have hp2 : Bearer.isPrefixOf (c :: cs) = false := Bool.eq_false_iff.mpr hp
      have h2 : 1 ≤ occurrences Bearer cs := by
        rwa [occurrences_cons_nomatch _ c cs hp2] at h
      obtain ⟨pre, post, hs⟩ := ih h2
      exact ⟨c :: pre, post, by simp [hs]⟩

theorem dropWhile_head_not (p : Char → Bool) (s : List Char) (c : Char)
    (h : (s.dropWhile p).head? = some c) : p c = false := by
  induction s with
  | nil => simp at h
  | cons a t ih =>
    by_cases ha : p a = true
    · rw [List.dropWhile_cons_of_pos ha] at h
      exact ih h
    · rw [List.dropWhile_cons_of_neg ha] at h
      simp only [List.head?_cons, Option.some.injEq] at h
      subst h
      exact Bool.eq_false_iff.mpr ha

theorem dropWhile_getLast_of_not (p : Char → Bool) (s : List Char) (c : Char)
    (h : s.getLast? = some c) (hc : p c = false) : (s.dropWhile p).getLast? = some c := by
  induction s with
  | nil => simp at h
  | cons a t ih =>
    by_cases ha : p a = true
    · rw [List.dropWhile_cons_of_pos ha]
      cases t with
      | nil =>
        simp only [List.getLast?_singleton, Option.some.injEq] at h
        subst h
        rw [hc] at ha
        exact absurd ha (by decide)
      | cons b u =>
        rw [List.getLast?_cons_cons] at h
        exact ih h
    · rw [List.dropWhile_cons_of_neg ha]
      exact h

theorem TrimSpace_spec (s : List Char) :
    ∃ l r, s = l ++ TrimSpace s ++ r ∧ (∀ c ∈ l, isSpace c = true) ∧
      (∀ c ∈ r, isSpace c = true) ∧
      (∀ c, (TrimSpace s).head? = some c → isSpace c = false) ∧
      (∀ c, (TrimSpace s).getLast? = some c → isSpace c = false) := by
  refine ⟨s.takeWhile isSpace, ((s.dropWhile isSpace).reverse.takeWhile isSpace).reverse,
    ?_, ?_, ?_, ?_, ?_⟩
  · have h1 := (List.takeWhile_append_dropWhile isSpace s).symm
    have h2 := (List.takeWhile_append_dropWhile isSpace (s.dropWhile isSpace).reverse).symm
    have h3 : s.dropWhile isSpace
        = ((s.dropWhile isSpace).reverse.dropWhile isSpace).reverse
          ++ ((s.dropWhile isSpace).reverse.takeWhile isSpace).reverse := by
      rw [← List.reverse_append, ← h2, List.reverse_reverse]
    unfold TrimSpace
    rw [List.append_assoc, ← h3]
    exact h1
  · intro c hc
    exact List.mem_takeWhile_imp hc
  · intro c hc
    exact List.mem_takeWhile_imp (List.mem_reverse.mp hc)
  · intro c hc
    unfold TrimSpace at hc
    rw [List.head?_reverse] at hc
    by_contra hsp
    have hsp2 : isSpace c = true := by simpa using hsp
    cases hm : (s.dropWhile isSpace).head? with
    | none =>
      have : s.dropWhile isSpace = [] := List.head?_eq_none_iff.mp hm
      rw [this] at hc
      simp at hc
    | some d =>
      have hd := dropWhile_head_not isSpace s d hm
      have hl : (s.dropWhile isSpace).reverse.getLast? = some d := by
        rw [List.getLast?_reverse]; exact hm
      have := dropWhile_getLast_of_not isSpace _ d hl hd
      rw [this] at hc
      simp only [Option.some.injEq] at hc
      subst hc
      rw [hd] at hsp2
      exact absurd hsp2 (by decide)
  · intro c hc
    unfold TrimSpace at hc
    rw [List.getLast?_reverse] at hc
    exact dropWhile_head_not isSpace _ c hc

theorem Split_once (pre post : List Char)
    (h : occurrences Bearer (pre ++ Bearer ++ post) = 1) :
    Split (pre ++ Bearer ++ post) Bearer = [pre, post] := by
  have := splitLoop_once pre post [] h
  simpa [Split] using this

theorem extractToken_of_once (h : String) (pre post : List Char)
    (hs : h.toList = pre ++ Bearer ++ post) (h1 : occurrences Bearer h.toList = 1) :
    extractToken h = (String.mk (TrimSpace post), none) := by
  have hsplit : Split h.toList Bearer = [pre, post] := by
    rw [hs] at h1 ⊢
    exact Split_once pre post h1
  unfold extractToken
  rw [hsplit]
  simp

theorem extractToken_of_not_once (h : String) (h1 : occurrences Bearer h.toList ≠ 1) :
    extractToken h = ("", some "Invalid format") := by
  have hl := Split_length h.toList
  have : (Split h.toList Bearer).length ≠ 2 := by omega
  unfold extractToken
  simp only [this, ne_eq, not_false_eq_true, if_true]

theorem extractToken_err_iff (h : String) :
    (extractToken h).2 = none ↔ occurrences Bearer h.toList = 1 := by
  constructor
  · intro he
    by_contra hne
    rw [extractToken_of_not_once h hne] at he
    simp at he
  · intro h1
    obtain ⟨pre, post, hs⟩ := occurrences_pos_split h.toList (by omega)
    rw [extractToken_of_once h pre post hs h1]

/-! ## Lemmas on the handlers -/

theorem length_eq_zero_iff (s : String) : s.length = 0 ↔ s = "" := by
  constructor
  · intro h
    have hd : s.data = [] := List.length_eq_zero.mp h
    exact String.ext hd
  · rintro rfl
    rfl

theorem TrimSpace_cons_space (s : List Char) : TrimSpace (' ' :: s) = TrimSpace s := by
  have h : isSpace ' ' = true := by decide
  simp [TrimSpace, List.dropWhile_cons_of_pos h]

theorem extractToken_Bearer_space (old t : String)
    (h : extractToken ("Bearer " ++ old) = (t, none)) :
    t = String.mk (TrimSpace old.toList) := by
  have h1 : occurrences Bearer ("Bearer " ++ old).toList = 1 :=
    (extractToken_err_iff _).mp (by rw [h])
  have hs : ("Bearer " ++ old).toList = [] ++ Bearer ++ (' ' :: old.toList) := by
    simp [Bearer]
  rw [extractToken_of_once _ [] (' ' :: old.toList) hs h1, TrimSpace_cons_space] at h
  exact (Prod.mk.inj h).1.symm

theorem byToken_isEmpty (db : DB) (t : String) :
    (db.byToken t).isEmpty = false ↔ ∃ r ∈ db.rows, r.token = t := by
  unfold DB.byToken
  rw [List.isEmpty_eq_false]
  simp only [ne_eq, List.map_eq_nil_iff, List.filter_eq_nil_iff, beq_iff_eq, not_forall,
    Classical.not_not, exists_prop]

theorem extractToken_eq (h : String) :
    extractToken h = if (Split h.toList Bearer).length ≠ 2 then ("", some "Invalid format")
      else (String.mk (TrimSpace ((Split h.toList Bearer).getD 1 [])), none) := rfl

theorem ValidateToken_unfold (env : Env) (db : DB) (h : String) :
    ValidateToken env db h = if (Split h.toList Bearer).length ≠ 2 then (false, [])
      else
        match env.stmtErr (.selectToken (String.mk (TrimSpace ((Split h.toList Bearer).getD 1 [])))) with
        | some _ =>
          (false, [.selectToken (String.mk (TrimSpace ((Split h.toList Bearer).getD 1 [])))])
        | none =>
          (!(db.byToken (String.mk (TrimSpace ((Split h.toList Bearer).getD 1 [])))).isEmpty,
            [.selectToken (String.mk (TrimSpace ((Split h.toList Bearer).getD 1 [])))]) := rfl

theorem ValidateToken_eq (env : Env) (db : DB) (h t : String)
    (ht : extractToken h = (t, none)) :
    ValidateToken env db h =
      (match env.stmtErr (.selectToken t) with
        | some _ => false
        | none => !(db.byToken t).isEmpty, [Stmt.selectToken t]) := by
  rw [extractToken_eq] at ht
  rw [ValidateToken_unfold]
  by_cases hl : (Split h.toList Bearer).length ≠ 2
  · rw [if_pos hl] at ht
    exact absurd (Prod.mk.inj ht).2 (by simp)
  · rw [if_neg hl] at ht
    rw [if_neg hl, (Prod.mk.inj ht).1]
    cases env.stmtErr (.selectToken t) <;> rfl

theorem ValidateToken_of_err (env : Env) (db : DB) (h : String)
    (he : (extractToken h).2 ≠ none) : ValidateToken env db h = (false, []) := by
  rw [extractToken_eq] at he
  rw [ValidateToken_unfold]
  by_cases hl : (Split h.toList Bearer).length ≠ 2
  · rw [if_pos hl]
  · rw [if_neg hl] at he
    exact absurd rfl he

theorem ValidateToken_true_iff (env : Env) (db : DB) (h t : String)
    (ht : extractToken h = (t, none)) :
    (ValidateToken env db h).1 = true ↔
      env.stmtErr (.selectToken t) = none ∧ ∃ r ∈ db.rows, r.token = t := by
  rw [ValidateToken_eq env db h t ht, ← byToken_isEmpty]
  cases env.stmtErr (.selectToken t) <;> simp

theorem LoginHandler_invalid (env : Env) (db : DB) (user : User) (err : Option String)
    (h : user.UserName = "" ∨ user.PasswordSalt = "") :
    LoginHandler env db user err =
      ⟨[⟨400, .errors ((if user.UserName = "" then ["Username required"] else []) ++
          (if user.PasswordSalt = "" then ["Password required"] else []))⟩], db, [], false,
        bindAbort err⟩ := by
  unfold LoginHandler
  simp only [length_eq_zero_iff]
  by_cases hu : user.UserName = "" <;> by_cases hp : user.PasswordSalt = "" <;>
    simp [hu, hp] at h ⊢

theorem LoginHandler_valid (env : Env) (db : DB) (user : User) (err : Option String)
    (hu : user.UserName ≠ "") (hp : user.PasswordSalt ≠ "") :
    LoginHandler env db user err =
      match lookupUser env db user with
      | .error e =>
        ⟨[⟨500, .err e⟩], db, [.selectByUsername user.UserName], false, bindAbort err⟩
      | .ok u =>
        if verifyPassword env u.PasswordSalt u.PasswordHash = false then
          ⟨[⟨422, .errors ["Username or password incorrect"]⟩], db,
            [.selectByUsername user.UserName], false, bindAbort err⟩
        else
          ⟨[⟨200, .account (updateToken env db u).1⟩], (updateToken env db u).2.1,
            .selectByUsername user.UserName :: (updateToken env db u).2.2, false,
            bindAbort err⟩ := by
  unfold LoginHandler
  simp only [length_eq_zero_iff]
  simp [hu, hp]

theorem lookupUser_ok (env : Env) (db : DB) (user u : User)
    (h : lookupUser env db user = .ok u) :
    u.PasswordSalt = user.PasswordSalt ∧ u.UserName = user.UserName ∧
    env.stmtErr (.selectByUsername user.UserName) = none ∧
    ∃ r ∈ db.rows, r.username = user.UserName ∧ r.id = u.ID ∧ r.token = u.Token ∧
      r.passwordhash = u.PasswordHash := by
  unfold lookupUser at h
  cases hs : env.stmtErr (.selectByUsername user.UserName) with
  | some e => simp [hs, RowScan] at h
  | none =>
    simp only [hs] at h
    cases hr : db.byUsername user.UserName with
    | nil => simp [hr, RowScan] at h
    | cons r rest =>
      have hmem : r ∈ db.byUsername user.UserName := by rw [hr]; exact List.mem_cons_self _ _
      unfold DB.byUsername at hmem
      rw [List.mem_filter] at hmem
      simp only [hr, RowScan] at h
      unfold scanInt8 at h
      by_cases hid : -128 ≤ r.id ∧ r.id ≤ 127
      · simp [hid] at h
        subst h
        exact ⟨rfl, by simpa using hmem.2, rfl, r, hmem.1, by simpa using hmem.2, rfl, rfl, rfl⟩
      · simp [hid] at h

theorem CreateUserHandler_invalid (env : Env) (db : DB) (postForm : String → String)
    (h : postForm "username" = "" ∨ postForm "password" = "" ∨ postForm "email" = "") :
    CreateUserHandler env db postForm =
      ⟨[⟨400, .errors ((if postForm "username" = "" then ["Username required"] else []) ++
          (if postForm "password" = "" then ["Password required"] else []) ++
          (if postForm "email" = "" then ["Email required"] else []))⟩], db, [], false,
        none⟩ := by
  unfold CreateUserHandler
  simp only [length_eq_zero_iff]
  by_cases hu : postForm "username" = "" <;> by_cases hp : postForm "password" = "" <;>
    by_cases he : postForm "email" = "" <;> simp [hu, hp, he] at h ⊢

theorem createUser_some (env : Env) (db : DB) (user : User)
    (r : User × Option GoError × DB × List Stmt) (h : createUser env db user = some r) :
    r.1.PasswordSalt = user.PasswordSalt ∧ r.1.UserName = user.UserName ∧ r.2.1 = none ∧
    r.2.2.2 = [Stmt.insertUser user.UserName user.FullName user.Email r.1.PasswordHash
      (tokenGenerator env)] := by
  unfold createUser at h
  rcases hh : hashPassword env user.PasswordSalt with ⟨hash, _ | e⟩
  · simp only [hh] at h
    cases hs : env.stmtErr (.insertUser user.UserName user.FullName user.Email hash
        (tokenGenerator env)) with
    | some e =>
      simp only [hs, Option.some.injEq] at h
      subst h
      exact ⟨rfl, rfl, rfl, rfl⟩
    | none =>
      simp only [hs] at h
      cases hi : scanInt8 (db.seq + 1) with
      | ok v =>
        simp only [hi, Option.some.injEq] at h
        subst h
        exact ⟨rfl, rfl, rfl, rfl⟩
      | error e =>
        simp only [hi, Option.some.injEq] at h
        subst h
        exact ⟨rfl, rfl, rfl, rfl⟩
  · simp [hh] at h

theorem CreateUserHandler_valid (env : Env) (db : DB) (postForm : String → String)
    (hu : postForm "username" ≠ "") (hp : postForm "password" ≠ "")
    (he : postForm "email" ≠ "") :
    CreateUserHandler env db postForm =
      match createUser env db ⟨0, postForm "username", postForm "fullname", postForm "email", "",
          postForm "password", false, ""⟩ with
      | none => ⟨[], db, [], true, none⟩
      | some (user, err, db1, stmts) =>
        ⟨(match err with
            | some e => [Response.mk 400 (.err e)]
            | none => []) ++ [⟨200, .account { user with PasswordSalt := "" }⟩],
          db1, stmts, false, none⟩ := by
  unfold CreateUserHandler
  simp only [length_eq_zero_iff]
  simp [hu, hp, he, User.zero]

theorem updateToken_eq (env : Env) (db : DB) (u : User) :
    updateToken env db u =
      ({ u with Token := tokenGenerator env },
        (match env.stmtErr (.updateToken (tokenGenerator env) u.ID) with
          | some _ => db
          | none => db.setToken (tokenGenerator env) u.ID),
        [.updateToken (tokenGenerator env) u.ID]) := by
  unfold updateToken
  cases h : env.stmtErr (.updateToken (tokenGenerator env) u.ID) with
  | some e => simp only [h]
  | none => simp only [h]

theorem LoginHandler_200_inv (env : Env) (db : DB) (user u1 : User) (err : Option String)
    (h200 : (LoginHandler env db user err).responses = [⟨200, .account u1⟩]) :
    ∃ u, lookupUser env db user = .ok u ∧
      verifyPassword env user.PasswordSalt u.PasswordHash = true ∧
      u1 = { u with Token := tokenGenerator env } ∧
      LoginHandler env db user err =
        ⟨[⟨200, .account u1⟩],
          (match env.stmtErr (.updateToken u1.Token u1.ID) with
            | some _ => db
            | none => db.setToken u1.Token u1.ID),
          [.selectByUsername user.UserName, .updateToken u1.Token u1.ID], false,
          bindAbort err⟩ := by
  by_cases hv : user.UserName = "" ∨ user.PasswordSalt = ""
  · rw [LoginHandler_invalid env db user err hv] at h200
    simp at h200
  · have hu : user.UserName ≠ "" := fun h => hv (Or.inl h)
    have hp : user.PasswordSalt ≠ "" := fun h => hv (Or.inr h)
    have hval := LoginHandler_valid env db user err hu hp
    cases hl : lookupUser env db user with
    | error e =>
      rw [hl] at hval
      simp only at hval
      rw [hval] at h200
      simp at h200
    | ok u =>
      rw [hl] at hval
      simp only at hval
      have hsalt := (lookupUser_ok env db user u hl).1
      rw [hsalt] at hval
      cases hver : verifyPassword env user.PasswordSalt u.PasswordHash with
      | false =>
        rw [hver] at hval
        simp only [if_true] at hval
        rw [hval] at h200
        simp at h200
      | true =>
        rw [hver] at hval
        simp only [Bool.true_eq_false, if_false] at hval
        rw [updateToken_eq] at hval
        simp only at hval
        have hu1 : u1 = { u with Token := tokenGenerator env } := by
          rw [hval] at h200
          simp only [List.cons.injEq, Response.mk.injEq, Body.account.injEq, and_true,
            true_and] at h200
          exact h200.symm
        refine ⟨u, rfl, hver, hu1, ?_⟩
        rw [hval, hu1]

theorem setToken_rows (db : DB) (tok : String) (id : Int) (r : StoredRow)
    (h : r ∈ (db.setToken tok id).rows) :
    (r.id = id ∧ r.token = tok) ∨ (r.id ≠ id ∧ r ∈ db.rows) := by
  unfold DB.setToken at h
  simp only [List.mem_map] at h
  obtain ⟨r0, hr0, heq⟩ := h
  by_cases hid : r0.id = id
  · have hb : (r0.id == id) = true := by simpa using hid
    rw [if_pos hb] at heq
    subst heq
    exact Or.inl ⟨hid, rfl⟩
  · have hb : (r0.id == id) = false := by simpa using hid
    simp only [hb, Bool.false_eq_true, if_false] at heq
    subst heq
    exact Or.inr ⟨hid, hr0⟩

theorem setToken_mem (db : DB) (tok : String) (id : Int) (r : StoredRow)
    (h : r ∈ db.rows) (hid : r.id = id) :
    { r with token := tok } ∈ (db.setToken tok id).rows := by
  unfold DB.setToken
  simp only [List.mem_map]
  exact ⟨r, h, by simp [hid]⟩

theorem ValidateToken_Bearer_false (env : Env) (db : DB) (old : String)
    (h : ∀ r ∈ db.rows, r.token ≠ String.mk (TrimSpace old.toList)) :
    (ValidateToken env db ("Bearer " ++ old)).1 = false := by
  rcases hx : extractToken ("Bearer " ++ old) with ⟨t, _ | e⟩
  · have ht := extractToken_Bearer_space old t hx
    cases hres : (ValidateToken env db ("Bearer " ++ old)).1 with
    | false => rfl
    | true =>
      obtain ⟨-, r, hr, hrt⟩ := (ValidateToken_true_iff env db _ t hx).mp hres
      exact absurd (hrt.trans ht) (h r hr)
  · rw [ValidateToken_of_err env db _ (by rw [hx]; simp)]

theorem lookupUser_no_rows (env : Env) (db : DB) (user : User)
    (hs : env.stmtErr (.selectByUsername user.UserName) = none)
    (hn : ∀ r ∈ db.rows, r.username ≠ user.UserName) :
    lookupUser env db user = .error ErrNoRows := by
  have hb : db.byUsername user.UserName = [] := by
    unfold DB.byUsername
    rw [List.filter_eq_nil_iff]
    intro r hr
    simpa using hn r hr
  unfold lookupUser
  simp only [hs, hb, RowScan]

/-! ## The claims -/

/-- C7: `extractToken` succeeds exactly when splitting the header on `"Bearer"` yields two
segments, that is when `"Bearer"` occurs exactly once in it; it then returns the text after
that occurrence with leading and trailing white space removed, and otherwise the error
`"Invalid format"` with an empty token. `"Bearer abc123"` gives `"abc123"`, `"abc123"`
fails, and `"Bearer "` followed by a token containing `"Bearer"` fails. -/
theorem extractToken_spec (h : String) :
    ((extractToken h).2 = none ↔ (Split h.toList Bearer).length = 2) ∧
    ((Split h.toList Bearer).length = 2 ↔ occurrences Bearer h.toList = 1) ∧
    (occurrences Bearer h.toList = 1 → ∃ pre post, h.toList = pre ++ Bearer ++ post) ∧
    (∀ pre post, h.toList = pre ++ Bearer ++ post → occurrences Bearer h.toList = 1 →
      extractToken h = (String.mk (TrimSpace post), none) ∧
      ∃ l r, post = l ++ TrimSpace post ++ r ∧ (∀ c ∈ l, isSpace c = true) ∧
        (∀ c ∈ r, isSpace c = true) ∧
        (∀ c, (TrimSpace post).head? = some c → isSpace c = false) ∧
        (∀ c, (TrimSpace post).getLast? = some c → isSpace c = false)) ∧
    (occurrences Bearer h.toList ≠ 1 → extractToken h = ("", some "Invalid format")) ∧
    extractToken "Bearer abc123" = ("abc123", none) ∧
    extractToken "abc123" = ("", some "Invalid format") ∧
    (∀ a b : String,
      extractToken ("Bearer " ++ a ++ "Bearer" ++ b) = ("", some "Invalid format")) := by
  have hlen := Split_length h.toList
  refine ⟨?_, ?_, ?_, ?_, ?_, ?_, ?_, ?_⟩
  · rw [extractToken_err_iff]
    omega
  · omega
  · intro h1
    exact occurrences_pos_split h.toList (by omega)
  · intro pre post hs h1
    exact ⟨extractToken_of_once h pre post hs h1, TrimSpace_spec post⟩
  · exact extractToken_of_not_once h
  · decide
  · decide
  · intro a b
    apply extractToken_of_not_once
    have hs : ("Bearer " ++ a ++ "Bearer" ++ b).toList
        = Bearer ++ ((' ' :: a.toList) ++ Bearer ++ b.toList) := by
      simp [Bearer]
    have := occurrences_infix_pos (' ' :: a.toList) b.toList
    rw [hs, occurrences_Bearer_append]
    omega

/-- C7, at the header `"Bearer  abc123 "`: one occurrence, the token is `"abc123"`. -/
theorem extractToken_spec_witness :
    extractToken "Bearer  abc123 " = ("abc123", none) :=
  ((extractToken_spec "Bearer  abc123 ").2.2.2.1 [] [' ', ' ', 'a', 'b', 'c', '1', '2', '3', ' ']
    (by decide) (by decide)).1

/-- C8: `ValidateToken` applies the extraction rule of `extractToken`: it is false, with no
query, when `extractToken` fails; when `extractToken` returns `t` it queries the store with
exactly `t` and is true iff the query runs and some row has the stored token `t`. -/
theorem ValidateToken_refines_extractToken (env : Env) (db : DB) (h : String) :
    ValidateToken env db h = ValidateTokenSpec env db h ∧
    ((extractToken h).2 ≠ none → ValidateToken env db h = (false, [])) ∧
    (∀ t, extractToken h = (t, none) →
      (ValidateToken env db h).2 = [Stmt.selectToken t] ∧
      ((ValidateToken env db h).1 = true ↔
        env.stmtErr (.selectToken t) = none ∧ ∃ r ∈ db.rows, r.token = t)) := by
  refine ⟨?_, ValidateToken_of_err env db h, ?_⟩
  · unfold ValidateTokenSpec
    rcases hx : extractToken h with ⟨t, _ | e⟩
    · rw [ValidateToken_eq env db h t hx]
      simp only [Prod.mk.injEq, and_true]
      have hb := byToken_isEmpty db t
      cases env.stmtErr (.selectToken t) with
      | some e => simp
      | none =>
        by_cases hr : ∃ r ∈ db.rows, r.token = t
        · simp [hr, hb.mpr hr]
        · have he : (db.byToken t).isEmpty = true := by
            cases hh : (db.byToken t).isEmpty
            · exact absurd (hb.mp hh) hr
            · rfl
          simp [hr, he]
    · exact ValidateToken_of_err env db h (by rw [hx]; simp)
  · intro t ht
    refine ⟨?_, ValidateToken_true_iff env db h t ht⟩
    rw [ValidateToken_eq env db h t ht]

/-- C8, at the header `"Bearer 0f"` on the store holding the token `0f`. -/
theorem ValidateToken_refines_extractToken_witness :
    (ValidateToken envUp dbAlice "Bearer 0f").2 = [Stmt.selectToken "0f"] ∧
    (ValidateToken envUp dbAlice "Bearer 0f").1 = true :=
  have hx : extractToken "Bearer 0f" = ("0f", none) := by decide
  have hw := (ValidateToken_refines_extractToken envUp dbAlice "Bearer 0f").2.2 "0f" hx
  ⟨hw.1, hw.2.mpr ⟨rfl, ⟨_, List.mem_singleton.mpr rfl, rfl⟩⟩⟩

/-- C1: when at least one of username, password, email is empty, `CreateUserHandler` writes
one 400 response whose list has one message for each empty field among the three, in the
order username, password, email, none for a non-empty field and none for fullname; it
issues no statement and leaves the store as it was, `createUser` not being called (a call
of `createUser` that returns issues the `INSERT`). -/
theorem CreateUserHandler_validation (env : Env) (db : DB) (postForm : String → String)
    (h : postForm "username" = "" ∨ postForm "password" = "" ∨ postForm "email" = "") :
    (CreateUserHandler env db postForm).responses =
      [⟨400, .errors ((if postForm "username" = "" then ["Username required"] else []) ++
          (if postForm "password" = "" then ["Password required"] else []) ++
          (if postForm "email" = "" then ["Email required"] else []))⟩] ∧
    (CreateUserHandler env db postForm).stmts = [] ∧
    (CreateUserHandler env db postForm).db = db ∧
    (CreateUserHandler env db postForm).exited = false ∧
    (∀ user r, createUser env db user = some r → r.2.2.2 ≠ []) := by
  rw [CreateUserHandler_invalid env db postForm h]
  refine ⟨rfl, rfl, rfl, rfl, ?_⟩
  intro user r hr
  rw [(createUser_some env db user r hr).2.2.2]
  simp

/-- C1, at a form with neither username nor password: the two messages, no statement. -/
theorem CreateUserHandler_validation_witness :
    (CreateUserHandler envUp dbAlice emptyForm).responses =
      [⟨400, .errors ["Username required", "Password required"]⟩] ∧
    (CreateUserHandler envUp dbAlice emptyForm).stmts = [] ∧
    (CreateUserHandler envUp dbAlice emptyForm).db = dbAlice :=
  have hw := CreateUserHandler_validation envUp dbAlice emptyForm (Or.inl (by decide))
  ⟨hw.1, hw.2.1, hw.2.2.1⟩

/-- C5, as amended: `LoginHandler` makes exactly one `c.JSON` call, decided in this order:
400 with the accumulated messages iff username or password is empty, and then no statement
is issued; otherwise 500 with the lookup error value, written on the wire as its `json`
text, iff the lookup of the row by username fails; otherwise 422 with the generic message iff `verifyPassword` on the submitted password and
the stored hash is false, and then no `UPDATE` is issued; otherwise 200 with the account
carrying the new token. When `c.BindJSON` returned no error the status of that call is the
status the client receives; when it returned an error gin has already written 400, and the
client receives 400 followed by the payload of that call. -/
theorem LoginHandler_status_order (env : Env) (db : DB) (user : User) (err : Option String) :
    (∃ r, (LoginHandler env db user err).responses = [r]) ∧
    ((user.UserName = "" ∨ user.PasswordSalt = "") →
      LoginHandler env db user err =
        ⟨[⟨400, .errors ((if user.UserName = "" then ["Username required"] else []) ++
          (if user.PasswordSalt = "" then ["Password required"] else []))⟩], db, [], false,
          bindAbort err⟩) ∧
    (user.UserName ≠ "" → user.PasswordSalt ≠ "" →
      (∀ e, lookupUser env db user = .error e →
        LoginHandler env db user err =
          ⟨[⟨500, .err e⟩], db, [.selectByUsername user.UserName], false, bindAbort err⟩) ∧
      (∀ u, lookupUser env db user = .ok u →
        verifyPassword env user.PasswordSalt u.PasswordHash = false →
        LoginHandler env db user err =
          ⟨[⟨422, .errors ["Username or password incorrect"]⟩], db,
            [.selectByUsername user.UserName], false, bindAbort err⟩) ∧
      (∀ u, lookupUser env db user = .ok u →
        verifyPassword env user.PasswordSalt u.PasswordHash = true →
        (LoginHandler env db user err).responses =
          [⟨200, .account { u with Token := tokenGenerator env }⟩])) ∧
    ((LoginHandler env db user err).responses.map (fun r => r.status) = [400] ↔
      (user.UserName = "" ∨ user.PasswordSalt = "")) ∧
    ((LoginHandler env db user err).responses.map (fun r => r.status) = [500] ↔
      ¬ (user.UserName = "" ∨ user.PasswordSalt = "") ∧
        ∃ e, lookupUser env db user = .error e) ∧
    ((LoginHandler env db user err).responses.map (fun r => r.status) = [422] ↔
      ¬ (user.UserName = "" ∨ user.PasswordSalt = "") ∧
        ∃ u, lookupUser env db user = .ok u ∧
          verifyPassword env user.PasswordSalt u.PasswordHash = false) ∧
    ((LoginHandler env db user err).responses.map (fun r => r.status) = [200] ↔
      ¬ (user.UserName = "" ∨ user.PasswordSalt = "") ∧
        ∃ u, lookupUser env db user = .ok u ∧
          verifyPassword env user.PasswordSalt u.PasswordHash = true) ∧
    (err = none → ∃ r, (LoginHandler env db user err).responses = [r] ∧
      (LoginHandler env db user err).wireStatus = some r.status) ∧
    (err ≠ none → (LoginHandler env db user err).wireStatus = some 400) := by
  have hwire : ∀ (r : Response) (db1 : DB) (stmts : List Stmt),
      LoginHandler env db user err = ⟨[r], db1, stmts, false, bindAbort err⟩ →
      (err = none → ∃ r, (LoginHandler env db user err).responses = [r] ∧
        (LoginHandler env db user err).wireStatus = some r.status) ∧
      (err ≠ none → (LoginHandler env db user err).wireStatus = some 400) := by
    intro r db1 stmts heq
    rw [heq]
    constructor
    · intro hn
      subst hn
      exact ⟨r, rfl, rfl⟩
    · intro hn
      cases err with
      | none => exact absurd rfl hn
      | some e => rfl
  by_cases hv : user.UserName = "" ∨ user.PasswordSalt = ""
  · have h400 := LoginHandler_invalid env db user err hv
    have hw := hwire _ _ _ h400
    refine ⟨⟨_, by rw [h400]⟩, fun _ => h400, ?_, ?_, ?_, ?_, ?_, hw.1, hw.2⟩
    · intro hu hp
      rcases hv with hv | hv
      · exact absurd hv hu
      · exact absurd hv hp
    · simp [h400, hv]
    · simp [h400, hv]
    · simp [h400, hv]
    · simp [h400, hv]
  · have hu : user.UserName ≠ "" := fun h => hv (Or.inl h)
    have hp : user.PasswordSalt ≠ "" := fun h => hv (Or.inr h)
    have hval := LoginHandler_valid env db user err hu hp
    cases hl : lookupUser env db user with
    | error e =>
      rw [hl] at hval
      simp only at hval
      have hw := hwire _ _ _ hval
      refine ⟨⟨_, by rw [hval]⟩, fun h => absurd h hv, fun _ _ => ⟨?_, ?_, ?_⟩, ?_, ?_, ?_, ?_,
        hw.1, hw.2⟩
      · intro e2 he2
        cases he2
        exact hval
      · intro u hu2
        cases hu2
      · intro u hu2
        cases hu2
      · simp [hval, hv]
      · simp [hval, hv]
      · simp [hval, hv]
      · simp [hval, hv]
    | ok u =>
      rw [hl] at hval
      simp only at hval
      have hsalt := (lookupUser_ok env db user u hl).1
      rw [hsalt] at hval
      cases hver : verifyPassword env user.PasswordSalt u.PasswordHash with
      | false =>
        rw [hver] at hval
        simp only [if_true] at hval
        have hw := hwire _ _ _ hval
        refine ⟨⟨_, by rw [hval]⟩, fun h => absurd h hv, fun _ _ => ⟨?_, ?_, ?_⟩, ?_, ?_, ?_, ?_,
          hw.1, hw.2⟩
        · intro e2 he2
          cases he2
        · intro u2 hu2 _
          exact hval
        · intro u2 hu2 hv2
          cases hu2
          rw [hver] at hv2
          cases hv2
        · simp [hval, hv]
        · simp [hval, hv]
        · simp [hval, hv, hver]
        · simp [hval, hv, hver]
      | true =>
        rw [hver] at hval
        simp only [Bool.true_eq_false, if_false] at hval
        rw [updateToken_eq] at hval
        simp only at hval
        have hw := hwire _ _ _ hval
        have hresp : (LoginHandler env db user err).responses =
            [⟨200, .account { u with Token := tokenGenerator env }⟩] := by
          rw [hval]
        refine ⟨⟨_, hresp⟩, fun h => absurd h hv, fun _ _ => ⟨?_, ?_, ?_⟩, ?_, ?_, ?_, ?_,
          hw.1, hw.2⟩
        · intro e2 he2
          cases he2
        · intro u2 hu2 hv2
          cases hu2
          rw [hver] at hv2
          cases hv2
        · intro u2 hu2 _
          cases hu2
          exact hresp
        · simp [hresp, hv]
        · simp [hresp, hv]
        · simp [hresp, hv, hver]
        · simp [hresp, hv, hver]

/-- C5, at the login of `alice` with her password, the body bound without error: one
`c.JSON` call, status 200, and 200 is the status the client receives. -/
theorem LoginHandler_status_order_witness :
    (LoginHandler envUp dbAlice aliceLogin none).responses.map (fun r => r.status) = [200] ∧
    ∃ r, (LoginHandler envUp dbAlice aliceLogin none).responses = [r] ∧
      (LoginHandler envUp dbAlice aliceLogin none).wireStatus = some r.status :=
  ⟨(LoginHandler_status_order envUp dbAlice aliceLogin none).2.2.2.2.2.2.1.mpr
    ⟨by decide, ⟨1, "alice", "Alice", "a@x.com", "hash:secret", "secret", false, "0f"⟩,
      rfl, by decide⟩,
   (LoginHandler_status_order envUp dbAlice aliceLogin none).2.2.2.2.2.2.2.1 rfl⟩

/-- C5, as stated, fails. For the body `{"username": "alice", "password": "secret",
"id": "x"}` binding fails after username and password are filled, so gin has written the
status 400; the handler then calls `c.JSON(200, account)`. The client receives the status
400 with the account, although neither username nor password is empty. -/
theorem LoginHandler_bind_error_answers_400 :
    aliceLogin.UserName ≠ "" ∧ aliceLogin.PasswordSalt ≠ "" ∧
    (LoginHandler envUp dbAlice aliceLogin (some bindErrId)).wireStatus = some 400 ∧
    (LoginHandler envUp dbAlice aliceLogin (some bindErrId)).responses =
      [⟨200, .account ⟨1, "alice", "Alice", "a@x.com", "hash:secret", "secret", false,
        tokenGenerator envUp⟩⟩] :=
  ⟨by decide, by decide, rfl, rfl⟩

/-- C6: for a registration form with username, password and email non-empty, every account
`CreateUserHandler` sends back has an empty `PasswordSalt`, whatever the password and
whether or not the `INSERT` ran; and unless `log.Fatal` ended the process an account is
sent back, with status 200. -/
theorem CreateUserHandler_clears_password (env : Env) (db : DB) (postForm : String → String)
    (hu : postForm "username" ≠ "") (hp : postForm "password" ≠ "")
    (he : postForm "email" ≠ "") :
    (∀ r ∈ (CreateUserHandler env db postForm).responses, ∀ u,
      r.body = .account u → u.PasswordSalt = "") ∧
    ((CreateUserHandler env db postForm).exited = false →
      ∃ u, (CreateUserHandler env db postForm).responses = [⟨200, .account u⟩] ∧
        u.UserName = postForm "username" ∧ u.PasswordSalt = "") := by
  rw [CreateUserHandler_valid env db postForm hu hp he]
  cases hc : createUser env db ⟨0, postForm "username", postForm "fullname", postForm "email",
      "", postForm "password", false, ""⟩ with
  | none => simp
  | some r =>
    obtain ⟨user, err, db1, stmts⟩ := r
    have hs := createUser_some env db _ _ hc
    simp only at hs
    obtain ⟨-, hname, herr, -⟩ := hs
    subst herr
    simp only [List.nil_append, List.mem_singleton]
    refine ⟨?_, fun _ => ⟨_, rfl, hname, rfl⟩⟩
    intro r hr u hbody
    subst hr
    simp only [Body.account.injEq] at hbody
    subst hbody
    rfl

/-- C6, at the registration of `alice` when the `INSERT` fails: the account sent back has
no password. -/
theorem CreateUserHandler_clears_password_witness :
    ∃ u, (CreateUserHandler envInsertFails dbEmpty aliceForm).responses
        = [⟨200, .account u⟩] ∧
      u.UserName = aliceForm "username" ∧ u.PasswordSalt = "" :=
  (CreateUserHandler_clears_password envInsertFails dbEmpty aliceForm
    (by decide) (by decide) (by decide)).2 rfl

/-- C9, the code at the failing input: the registration of `alice` when the `INSERT`
fails at the driver writes the 200 account response alone, no 400 response, and the
store is unchanged. More generally no valid registration form, in any environment, is
ever answered with a 400 response: `createUser` returns no error. -/
theorem CreateUserHandler_insert_failure_not_surfaced :
    (CreateUserHandler envInsertFails dbEmpty aliceForm).responses =
      [⟨200, .account ⟨0, "alice", "", "a@x.com", "hash:secret", "", false,
        tokenGenerator envInsertFails⟩⟩] ∧
    (CreateUserHandler envInsertFails dbEmpty aliceForm).db = dbEmpty ∧
    (CreateUserHandler envInsertFails dbEmpty aliceForm).stmts =
      [.insertUser "alice" "" "a@x.com" "hash:secret" (tokenGenerator envInsertFails)] ∧
    (∀ (env : Env) (db : DB) (postForm : String → String),
      postForm "username" ≠ "" → postForm "password" ≠ "" → postForm "email" ≠ "" →
      ∀ r ∈ (CreateUserHandler env db postForm).responses, r.status ≠ 400) := by
  refine ⟨rfl, rfl, rfl, ?_⟩
  intro env db postForm hu hp he
  rw [CreateUserHandler_valid env db postForm hu hp he]
  cases hc : createUser env db ⟨0, postForm "username", postForm "fullname", postForm "email",
      "", postForm "password", false, ""⟩ with
  | none => simp
  | some r =>
    obtain ⟨user, err, db1, stmts⟩ := r
    have herr := (createUser_some env db _ _ hc).2.2.1
    simp only at herr
    subst herr
    intro r hr
    simp only [List.nil_append, List.mem_singleton] at hr
    subst hr
    show (200 : Nat) ≠ 400
    decide

/-- C10, the code at the failing input: the login of `alice` with the password `secret`
is answered 200 with an account whose `PasswordSalt` is the submitted `secret`. More
generally every account `LoginHandler` returns with status 200 carries the submitted
password, which is not empty. -/
theorem LoginHandler_returns_plaintext_password :
    (LoginHandler envUp dbAlice aliceLogin none).responses =
      [⟨200, .account ⟨1, "alice", "Alice", "a@x.com", "hash:secret", "secret", false,
        tokenGenerator envUp⟩⟩] ∧
    (LoginHandler envUp dbAlice aliceLogin none).wireStatus = some 200 ∧
    (∀ (env : Env) (db : DB) (user u1 : User) (err : Option String),
      (LoginHandler env db user err).responses = [⟨200, .account u1⟩] →
      u1.PasswordSalt = user.PasswordSalt ∧ user.PasswordSalt ≠ "") := by
  refine ⟨rfl, rfl, ?_⟩
  intro env db user u1 err h200
  obtain ⟨u, hl, -, hu1, -⟩ := LoginHandler_200_inv env db user u1 err h200
  refine ⟨?_, ?_⟩
  · rw [hu1]
    exact (lookupUser_ok env db user u hl).1
  · intro hp
    rw [LoginHandler_invalid env db user err (Or.inr hp)] at h200
    simp at h200

/-- C2, the code at the failing inputs: for the header `"Bearer abc123"` on a store that
holds no such token `UserByToken` writes a single 200 response with a zero-valued account,
while `ValidateToken` is false; for the header `"abc123"`, which fails extraction, it
writes the 502 error and then still the 200 response. -/
theorem UserByToken_always_answers_200 :
    (UserByToken envUp dbAlice "Bearer abc123").responses = [⟨200, .account User.zero⟩] ∧
    (ValidateToken envUp dbAlice "Bearer abc123").1 = false ∧
    (UserByToken envUp dbAlice "abc123").responses =
      [⟨502, .h "error" "Invalid format"⟩, ⟨200, .account User.zero⟩] ∧
    (ValidateToken envUp dbAlice "abc123").1 = false ∧
    (∀ (env : Env) (db : DB) (header : String),
      (UserByToken env db header).responses.getLast? = some ⟨200, .account User.zero⟩) := by
  refine ⟨by decide, by decide, by decide, by decide, ?_⟩
  intro env db header
  unfold UserByToken
  simp only [List.getLast?_append, List.getLast?_singleton]
  split <;> simp

/-- C4, as amended: when `LoginHandler` answers 200, the token of the returned account is
the token generated in that run, and the `UPDATE` is issued with it and the id of a row
with the submitted username. When the `UPDATE` runs, the token is stored in that row and
in every row with that id, overwriting the previous one; and `ValidateToken` on
`"Bearer " ++ old` is then false for every `old` whose trimmed text differs from the new
token and is held by no row with another id. -/
theorem LoginHandler_rotates_token (env : Env) (db : DB) (user u1 : User)
    (err : Option String)
    (h200 : (LoginHandler env db user err).responses = [⟨200, .account u1⟩]) :
    u1.Token = tokenGenerator env ∧
    (LoginHandler env db user err).stmts =
      [.selectByUsername user.UserName, .updateToken u1.Token u1.ID] ∧
    (∃ r ∈ db.rows, r.username = user.UserName ∧ r.id = u1.ID) ∧
    (env.stmtErr (.updateToken u1.Token u1.ID) = none →
      (LoginHandler env db user err).db = db.setToken u1.Token u1.ID ∧
      (∃ r ∈ (LoginHandler env db user err).db.rows,
        r.username = user.UserName ∧ r.id = u1.ID ∧ r.token = u1.Token) ∧
      (∀ r ∈ (LoginHandler env db user err).db.rows, r.id = u1.ID → r.token = u1.Token) ∧
      (∀ (old : String) (env2 : Env),
        u1.Token ≠ String.mk (TrimSpace old.toList) →
        (∀ r ∈ db.rows, r.id ≠ u1.ID → r.token ≠ String.mk (TrimSpace old.toList)) →
        (ValidateToken env2 (LoginHandler env db user err).db ("Bearer " ++ old)).1 = false)) := by
  obtain ⟨u, hl, -, hu1, heq⟩ := LoginHandler_200_inv env db user u1 err h200
  obtain ⟨-, -, -, r, hr, hrname, hrid, -, -⟩ := lookupUser_ok env db user u hl
  have hid : u1.ID = u.ID := by rw [hu1]
  refine ⟨by rw [hu1], by rw [heq], ⟨r, hr, hrname, by rw [hid]; exact hrid⟩, ?_⟩
  intro hs
  have hdb : (LoginHandler env db user err).db = db.setToken u1.Token u1.ID := by
    rw [heq]
    simp only [hs]
  refine ⟨hdb, ?_, ?_, ?_⟩
  · rw [hdb]
    exact ⟨_, setToken_mem db u1.Token u1.ID r hr (by rw [hid]; exact hrid), hrname,
      by rw [hid]; exact hrid, rfl⟩
  · intro r2 hr2 hid2
    rw [hdb] at hr2
    rcases setToken_rows db _ _ r2 hr2 with h1 | h1
    · exact h1.2
    · exact absurd hid2 h1.1
  · intro old env2 hne hothers
    apply ValidateToken_Bearer_false
    intro r2 hr2
    rw [hdb] at hr2
    rcases setToken_rows db _ _ r2 hr2 with h1 | h1
    · rw [h1.2]
      exact hne
    · exact hothers r2 h1.2 h1.1

/-- C4, at the login of `alice` on the store where her token is `0f`: the `UPDATE` runs
and the old token no longer validates. -/
theorem LoginHandler_rotates_token_witness :
    (ValidateToken envUp (LoginHandler envUp dbAlice aliceLogin none).db
      ("Bearer " ++ "0f")).1 = false :=
  (LoginHandler_rotates_token envUp dbAlice aliceLogin
    ⟨1, "alice", "Alice", "a@x.com", "hash:secret", "secret", false, tokenGenerator envUp⟩
    none rfl).2.2.2 rfl |>.2.2.2 "0f" envUp (by decide) (by decide)

/-- C4, as stated, fails. With the `UPDATE` failing at the driver the login is answered 200
and the store is unchanged, so the old token still validates. With `rand.Read` delivering
the bytes of the old token, the returned token is the old token, which still validates.
With an old token that starts with a blank, held by no other account, the header
`"Bearer " ++ old` validates against the account holding its trimmed text. -/
theorem LoginHandler_old_token_survives :
    ((LoginHandler envUpdateFails dbAlice aliceLogin none).responses.map (fun r => r.status)
        = [200] ∧
      (LoginHandler envUpdateFails dbAlice aliceLogin none).wireStatus = some 200 ∧
      (LoginHandler envUpdateFails dbAlice aliceLogin none).db = dbAlice ∧
      (ValidateToken envUp (LoginHandler envUpdateFails dbAlice aliceLogin none).db
        "Bearer 0f").1 = true) ∧
    ((LoginHandler envZero dbAliceZero aliceLogin none).responses =
        [⟨200, .account ⟨1, "alice", "Alice", "a@x.com", "hash:secret", "secret", false,
          tokenGenerator envZero⟩⟩] ∧
      (LoginHandler envZero dbAliceZero aliceLogin none).wireStatus = some 200 ∧
      (LoginHandler envZero dbAliceZero aliceLogin none).db = dbAliceZero ∧
      (ValidateToken envUp (LoginHandler envZero dbAliceZero aliceLogin none).db
        ("Bearer " ++ tokenGenerator envZero)).1 = true) ∧
    ((LoginHandler envUp dbBlank aliceLogin none).responses.map (fun r => r.status) = [200] ∧
      (LoginHandler envUp dbBlank aliceLogin none).wireStatus = some 200 ∧
      (∀ r ∈ (LoginHandler envUp dbBlank aliceLogin none).db.rows, r.token ≠ " 0f") ∧
      (ValidateToken envUp (LoginHandler envUp dbBlank aliceLogin none).db
        ("Bearer " ++ " 0f")).1 = true) := by
  refine ⟨⟨by decide, by decide, by decide, by decide⟩,
    ⟨by decide, by decide, by decide, by decide⟩,
    ⟨by decide, by decide, by decide, by decide⟩⟩

/-- C3, as stated, fails: with the same username and password, the body bound without
error, the login is answered 500 with the error `sql.ErrNoRows` when no row has the
username, and 422 with the generic message when the row exists and the password does not
verify. When binding failed the client receives 400 in both runs, and the payloads still
differ. -/
theorem LoginHandler_unknown_user_distinguishable :
    ((LoginHandler envUp dbEmpty aliceWrong none).responses = [⟨500, .err ErrNoRows⟩] ∧
      (LoginHandler envUp dbEmpty aliceWrong none).wireStatus = some 500 ∧
      (LoginHandler envUp dbAlice aliceWrong none).responses =
        [⟨422, .errors ["Username or password incorrect"]⟩] ∧
      (LoginHandler envUp dbAlice aliceWrong none).wireStatus = some 422) ∧
    ((LoginHandler envUp dbEmpty aliceWrong (some bindErrId)).wireStatus = some 400 ∧
      (LoginHandler envUp dbAlice aliceWrong (some bindErrId)).wireStatus = some 400 ∧
      (LoginHandler envUp dbEmpty aliceWrong (some bindErrId)).responses ≠
        (LoginHandler envUp dbAlice aliceWrong (some bindErrId)).responses) := by
  decide

/-- C3, as amended: for a non-empty username and password, when the query runs and no row
has the username the single `c.JSON` call of `LoginHandler` is 500 with the error
`sql.ErrNoRows`, written on the wire as the empty object; when the row is found and the
password does not verify against the stored hash the single call is 422 with the generic
message `Username or password incorrect`. The client receives the status of the call, 500
or 422, when `c.BindJSON` returned no error, and the 400 gin has already written when it
returned one. Neither run changes the store. -/
theorem LoginHandler_unknown_user_vs_wrong_password (env : Env) (db : DB) (user : User)
    (err : Option String) (hu : user.UserName ≠ "") (hp : user.PasswordSalt ≠ "") :
    (env.stmtErr (.selectByUsername user.UserName) = none →
      (∀ r ∈ db.rows, r.username ≠ user.UserName) →
      LoginHandler env db user err =
        ⟨[⟨500, .err ErrNoRows⟩], db, [.selectByUsername user.UserName], false,
          bindAbort err⟩ ∧
      ErrNoRows.json = "\x7b\x7d" ∧
      (err = none → (LoginHandler env db user err).wireStatus = some 500) ∧
      (err ≠ none → (LoginHandler env db user err).wireStatus = some 400)) ∧
    (∀ u, lookupUser env db user = .ok u →
      verifyPassword env user.PasswordSalt u.PasswordHash = false →
      LoginHandler env db user err =
        ⟨[⟨422, .errors ["Username or password incorrect"]⟩], db,
          [.selectByUsername user.UserName], false, bindAbort err⟩ ∧
      (err = none → (LoginHandler env db user err).wireStatus = some 422) ∧
      (err ≠ none → (LoginHandler env db user err).wireStatus = some 400)) := by
  have hval := LoginHandler_valid env db user err hu hp
  have hwire : ∀ (r : Response) (db1 : DB) (stmts : List Stmt),
      LoginHandler env db user err = ⟨[r], db1, stmts, false, bindAbort err⟩ →
      (err = none → (LoginHandler env db user err).wireStatus = some r.status) ∧
      (err ≠ none → (LoginHandler env db user err).wireStatus = some 400) := by
    intro r db1 stmts heq
    rw [heq]
    constructor
    · intro hn
      subst hn
      rfl
    · intro hn
      cases err with
      | none => exact absurd rfl hn
      | some e => rfl
  constructor
  · intro hs hn
    have heq : LoginHandler env db user err =
        ⟨[⟨500, .err ErrNoRows⟩], db, [.selectByUsername user.UserName], false,
          bindAbort err⟩ := by
      rw [hval, lookupUser_no_rows env db user hs hn]
    exact ⟨heq, rfl, (hwire _ _ _ heq).1, (hwire _ _ _ heq).2⟩
  · intro u hl hver
    have heq : LoginHandler env db user err =
        ⟨[⟨422, .errors ["Username or password incorrect"]⟩], db,
          [.selectByUsername user.UserName], false, bindAbort err⟩ := by
      rw [hval, hl]
      simp only
      rw [(lookupUser_ok env db user u hl).1, hver]
      rfl
    exact ⟨heq, (hwire _ _ _ heq).1, (hwire _ _ _ heq).2⟩

/-- C3, at the login of `alice` with a wrong password, on the empty store and on the
store holding her account, the body bound without error: the client receives 500 and
422. -/
theorem LoginHandler_unknown_user_vs_wrong_password_witness :
    (LoginHandler envUp dbEmpty aliceWrong none).wireStatus = some 500 ∧
    (LoginHandler envUp dbAlice aliceWrong none).wireStatus = some 422 :=
  ⟨((LoginHandler_unknown_user_vs_wrong_password envUp dbEmpty aliceWrong none
        (by decide) (by decide)).1 rfl (by decide)).2.2.1 rfl,
    ((LoginHandler_unknown_user_vs_wrong_password envUp dbAlice aliceWrong none
        (by decide) (by decide)).2
        ⟨1, "alice", "Alice", "a@x.com", "hash:secret", "wrong", false, "0f"⟩ rfl
        (by decide)).2.1 rfl⟩

end Legislacion
